import Mathlib

/-!
Verification of the task-list store of `src/src/main.ts`.

The program keeps a global array `todos : Todo[]` and a marker
`editingId : number | null`, mutated by event handlers (add, delete,
start edit, cancel edit, save edit, complete) and by the startup fetch.
We embed the store as an explicit state value and each handler's effect
on the store as a pure function.  Timestamps (`Date.now()`,
`new Date().toLocaleString()`) become explicit parameters.
-/

/-- The `Todo` interface of `main.ts`: id, title, completed, and the two
optional timestamp strings. -/
structure Todo where
  id : Nat
  title : String
  completed : Bool
  completedTime : Option String
  modifiedTime : Option String
deriving Repr, DecidableEq

/-- The module-level mutable state of `main.ts`: the `todos` array and the
`editingId` marker (`null` embedded as `none`). -/
structure Store where
  todos : List Todo
  editingId : Option Nat
deriving Repr, DecidableEq

/-- The initial state: `let todos: Todo[] = []` and `let editingId = null`. -/
def initialStore : Store := { todos := [], editingId := none }

/-- The blank test used by the handlers: in `main.ts`, `!text.trim()`
holds exactly when the string trimmed of surrounding whitespace is empty,
i.e. when every character is whitespace. -/
def isBlank (text : String) : Bool :=
  text.data.all (fun c => c.isWhitespace)

/-- The `addBtn` click handler: `if (!text.trim()) return;` else push
`{ id: Date.now(), title: text, completed: false, modifiedTime: now }`.
`now` is the value of `Date.now()` and `nowStr` of `toLocaleString()`. -/
def addTodo (now : Nat) (nowStr : String) (text : String) (s : Store) : Store :=
  if isBlank text then s
  else
    { s with todos := s.todos ++
        [{ id := now, title := text, completed := false,
           completedTime := none, modifiedTime := some nowStr }] }

/-- The delete handler: `todos = todos.filter(todo => todo.id !== idToDelete)`. -/
def deleteTodo (id : Nat) (s : Store) : Store :=
  { s with todos := s.todos.filter (fun t => !(t.id == id)) }

/-- The change-button handler: `editingId = id`. -/
def startEdit (id : Nat) (s : Store) : Store :=
  { s with editingId := some id }

/-- The cancel-button handler: `editingId = null`. -/
def cancelEdit (s : Store) : Store :=
  { s with editingId := none }

/-- In-place mutation of the first element satisfying `p`, as done through
the reference returned by `todos.find(...)` in the save and complete
handlers. -/
def updateFirst (p : Todo → Bool) (f : Todo → Todo) : List Todo → List Todo
  | [] => []
  | t :: ts => if p t then f t :: ts else t :: updateFirst p f ts

/-- The save-button handler: `const todo = todos.find(t => t.id === id);`
`if (todo && newText.trim()) { todo.title = newText; delete
todo.completedTime; todo.completed = false; todo.modifiedTime = now; }`
then unconditionally `editingId = null`. -/
def saveEdit (nowStr : String) (id : Nat) (newText : String) (s : Store) : Store :=
  if isBlank newText then { todos := s.todos, editingId := none }
  else
    match s.todos.find? (fun t => t.id == id) with
    | none => { todos := s.todos, editingId := none }
    | some _ =>
        let todos' :=
          updateFirst (fun t => t.id == id)
            (fun t => { t with title := newText, completedTime := none,
                               completed := false, modifiedTime := some nowStr })
            s.todos
        { todos := todos', editingId := none }

/-- The complete-button handler: `const todo = todos.find(t => t.id === id);`
`if (todo && todo.completed) return;` else `if (todo) { todo.completed =
true; todo.completedTime = timeString; }`. -/
def complete (nowStr : String) (id : Nat) (s : Store) : Store :=
  match s.todos.find? (fun t => t.id == id) with
  | none => s
  | some t =>
      if t.completed then s
      else
        let todos' :=
          updateFirst (fun t => t.id == id)
            (fun t => { t with completed := true, completedTime := some nowStr })
            s.todos
        { s with todos := todos' }

/-- `fetchTodos`: on success `todos = data`; on failure the `catch` block
logs (`console.error`) and leaves the store alone.  The returned flag is
true exactly when the error was logged. -/
def fetchTodos (result : Except String (List Todo)) (s : Store) : Store × Bool :=
  match result with
  | .ok data => ({ s with todos := data }, false)
  | .error _ => (s, true)

/-- One user-visible or network event, with the clock readings it consumed. -/
inductive Op where
  | add (now : Nat) (nowStr : String) (text : String)
  | del (id : Nat)
  | startE (id : Nat)
  | cancelE
  | save (nowStr : String) (id : Nat) (text : String)
  | compl (nowStr : String) (id : Nat)
  | seed (data : List Todo)
  | seedFail (e : String)

/-- Effect of one event on the store. -/
def step : Op → Store → Store
  | .add now nowStr text, s => addTodo now nowStr text s
  | .del id, s => deleteTodo id s
  | .startE id, s => startEdit id s
  | .cancelE, s => cancelEdit s
  | .save nowStr id text, s => saveEdit nowStr id text s
  | .compl nowStr id, s => complete nowStr id s
  | .seed data, s => (fetchTodos (.ok data) s).1
  | .seedFail e, s => (fetchTodos (.error e) s).1

/-- Environment assumptions under which the events fire in the running
page: `Date.now()` is a clock, so an add's timestamp exceeds every id
already in the store (earlier adds used earlier clock readings and the
seed endpoint serves small ids), and the seed endpoint returns records
with pairwise-distinct ids and no completion timestamp (it serves only
the subset id, title, completed). -/
def opOk (s : Store) : Op → Prop
  | .add now _ _ => ∀ t ∈ s.todos, t.id < now
  | .seed data => (data.map Todo.id).Nodup ∧ ∀ t ∈ data, t.completedTime = none
  | _ => True

/-- Store states reachable from startup by events satisfying `opOk`. -/
inductive Reachable : Store → Prop where
  | init : Reachable initialStore
  | step {s : Store} {op : Op} : Reachable s → opOk s op → Reachable (step op s)

/-- Identifiers are pairwise distinct in the store. -/
def idsNodup (s : Store) : Prop := (s.todos.map Todo.id).Nodup

/-- Every record carrying a completion timestamp is completed. -/
def ctInv (s : Store) : Prop :=
  ∀ t ∈ s.todos, t.completedTime.isSome → t.completed = true

/-! Helper lemmas about `updateFirst`, the embedding of the in-place
mutation performed through the reference returned by `Array.find`. -/

/-- Updating one element does not change the length of the list. -/
theorem updateFirst_length (p : Todo → Bool) (f : Todo → Todo) (l : List Todo) :
    (updateFirst p f l).length = l.length := by
  induction l with
  | nil => rfl
  | cons t ts ih => cases h : p t <;> simp [updateFirst, h, ih]

/-- If the update keeps ids, the list of ids is unchanged. -/
theorem map_id_updateFirst (p : Todo → Bool) (f : Todo → Todo)
    (hf : ∀ t, (f t).id = t.id) (l : List Todo) :
    (updateFirst p f l).map Todo.id = l.map Todo.id := by
  induction l with
  | nil => rfl
  | cons t ts ih => cases h : p t <;> simp [updateFirst, h, ih, hf]

/-- If the update preserves the predicate, finding again after the update
returns the updated element. -/
theorem find?_updateFirst (p : Todo → Bool) (f : Todo → Todo)
    (hpf : ∀ t, p t = true → p (f t) = true) (l : List Todo) :
    (updateFirst p f l).find? p = (l.find? p).map f := by
  induction l with
  | nil => rfl
  | cons t ts ih =>
    cases h : p t with
    | true =>
      rw [updateFirst, if_pos h]
      rw [List.find?_cons_of_pos _ (hpf t h), List.find?_cons_of_pos _ h]
      rfl
    | false =>
      rw [updateFirst, if_neg (by simp [h])]
      rw [List.find?_cons_of_neg _ (by simp [h]), List.find?_cons_of_neg _ (by simp [h])]
      exact ih

/-- Every element of the updated list is an old element or the image of an
old element. -/
theorem mem_updateFirst {p : Todo → Bool} {f : Todo → Todo} {l : List Todo} {t : Todo}
    (h : t ∈ updateFirst p f l) : t ∈ l ∨ ∃ u, u ∈ l ∧ t = f u := by
  induction l with
  | nil => exact absurd h (by simp [updateFirst])
  | cons a ts ih =>
    by_cases ha : p a = true
    · rw [updateFirst, if_pos ha] at h
      rcases List.mem_cons.mp h with h1 | h2
      · exact Or.inr ⟨a, List.mem_cons_self a ts, h1⟩
      · exact Or.inl (List.mem_cons_of_mem _ h2)
    · rw [updateFirst, if_neg ha] at h
      rcases List.mem_cons.mp h with h1 | h2
      · exact Or.inl (h1 ▸ List.mem_cons_self a ts)
      · rcases ih h2 with h3 | ⟨u, hu, he⟩
        · exact Or.inl (List.mem_cons_of_mem _ h3)
        · exact Or.inr ⟨u, List.mem_cons_of_mem _ hu, he⟩

/-- Positions holding an element the predicate rejects are untouched. -/
theorem getElem?_updateFirst (p : Todo → Bool) (f : Todo → Todo) (l : List Todo)
    (i : Nat) (t : Todo) (h : l[i]? = some t) (hp : p t = false) :
    (updateFirst p f l)[i]? = some t := by
  induction l generalizing i with
  | nil => simp at h
  | cons a ts ih =>
    cases i with
    | zero =>
      simp only [List.getElem?_cons_zero, Option.some.injEq] at h
      subst h
      rw [updateFirst, if_neg (by simp [hp])]
      simp
    | succ n =>
      by_cases ha : p a = true
      · rw [updateFirst, if_pos ha]
        simpa using h
      · rw [updateFirst, if_neg ha]
        rw [List.getElem?_cons_succ] at h ⊢
        exact ih n h

/-- The editing marker is cleared by every save, blank or not: the handler
sets `editingId = null` outside the `if (todo && newText.trim())` guard. -/
theorem saveEdit_editingId (nowStr : String) (id : Nat) (newText : String) (s : Store) :
    (saveEdit nowStr id newText s).editingId = none := by
  simp only [saveEdit]
  split
  · rfl
  · split <;> rfl

/-- A one-record store in view mode, used to instantiate theorems. -/
def sampleStore : Store :=
  { todos := [{ id := 1, title := "A", completed := false,
                completedTime := none, modifiedTime := none }],
    editingId := none }

/-- A one-record store whose record is completed and selected for editing. -/
def sampleEditing : Store :=
  { todos := [{ id := 1, title := "A", completed := true,
                completedTime := some "c", modifiedTime := none }],
    editingId := some 1 }

/-- Claim C1 as stated is false: after a blank save the editing marker,
which was `some 1`, is cleared to `none`, because `editingId = null` runs
unconditionally in the save handler. -/
theorem c1_counterexample :
    isBlank " " = true ∧
    sampleEditing.editingId = some 1 ∧
    (saveEdit "m" 1 " " sampleEditing).editingId = none :=
  ⟨by decide, rfl, saveEdit_editingId "m" 1 " " sampleEditing⟩

/-- Claim C1 (amended): calling saveEdit with a title that is blank after
trimming leaves every record unchanged, but it still clears the editing
marker, so the record leaves edit mode. -/
theorem saveEdit_blank (nowStr : String) (id : Nat) (newText : String) (s : Store)
    (h : isBlank newText = true) :
    (saveEdit nowStr id newText s).todos = s.todos ∧
    (saveEdit nowStr id newText s).editingId = none := by
  refine ⟨?_, saveEdit_editingId nowStr id newText s⟩
  simp [saveEdit, h]

/-- Witness for the amended claim C1 at a concrete blank input. -/
theorem saveEdit_blank_witness :
    isBlank " " = true ∧
    ((saveEdit "m" 1 " " sampleEditing).todos = sampleEditing.todos ∧
     (saveEdit "m" 1 " " sampleEditing).editingId = none) :=
  ⟨by decide, saveEdit_blank "m" 1 " " sampleEditing (by decide)⟩

/-- Claim C2 as stated is false: the record freshly created by add from the
empty store carries a modified timestamp, because the add handler sets
`modifiedTime: new Date().toLocaleString()` at creation. -/
theorem c2_counterexample :
    (addTodo 5 "now" "hello" initialStore).todos.map Todo.modifiedTime ≠ [none] ∧
    (addTodo 5 "now" "hello" initialStore).todos.map Todo.modifiedTime = [some "now"] :=
  ⟨by decide, by decide⟩

/-- Claim C2 (amended): a record freshly created by add carries a modified
timestamp set at creation time; it is not the case that the modified
timestamp appears only after an edit. -/
theorem addTodo_modifiedTime (s : Store) (now : Nat) (nowStr text : String)
    (h : isBlank text = false) :
    (addTodo now nowStr text s).todos.getLast? =
      some { id := now, title := text, completed := false,
             completedTime := none, modifiedTime := some nowStr } := by
  simp [addTodo, h]

/-- Witness for the amended claim C2 at a concrete non-blank input. -/
theorem addTodo_modifiedTime_witness :
    isBlank "hello" = false ∧
    (addTodo 5 "now" "hello" initialStore).todos.getLast? =
      some { id := 5, title := "hello", completed := false,
             completedTime := none, modifiedTime := some "now" } :=
  ⟨by decide, addTodo_modifiedTime initialStore 5 "now" "hello" (by decide)⟩

/-- Claim C6: delete removes exactly the records whose id matches — the
result is a sublist of the original (relative order kept), contains no
record with the deleted id, keeps every record with a different id, is a
complete no-op when no record matches, and never touches the editing
marker. -/
theorem deleteTodo_spec (s : Store) (id : Nat) :
    List.Sublist (deleteTodo id s).todos s.todos ∧
    (∀ t ∈ (deleteTodo id s).todos, t.id ≠ id) ∧
    (∀ t ∈ s.todos, t.id ≠ id → t ∈ (deleteTodo id s).todos) ∧
    ((∀ t ∈ s.todos, t.id ≠ id) → deleteTodo id s = s) ∧
    (deleteTodo id s).editingId = s.editingId := by
  refine ⟨List.filter_sublist s.todos, ?_, ?_, ?_, rfl⟩
  · intro t ht
    have hp := List.of_mem_filter ht
    simpa using hp
  · intro t ht hne
    exact List.mem_filter.mpr ⟨ht, by simpa using hne⟩
  · intro hall
    have hfil : s.todos.filter (fun t => !(t.id == id)) = s.todos :=
      List.filter_eq_self.mpr (fun t ht => by simpa using hall t ht)
    show { s with todos := s.todos.filter (fun t => !(t.id == id)) } = s
    rw [hfil]

/-- Witness for claim C6 at a concrete store and id. -/
theorem deleteTodo_spec_witness :
    List.Sublist (deleteTodo 2 sampleStore).todos sampleStore.todos ∧
    (∀ t ∈ (deleteTodo 2 sampleStore).todos, t.id ≠ 2) ∧
    (∀ t ∈ sampleStore.todos, t.id ≠ 2 → t ∈ (deleteTodo 2 sampleStore).todos) ∧
    ((∀ t ∈ sampleStore.todos, t.id ≠ 2) → deleteTodo 2 sampleStore = sampleStore) ∧
    (deleteTodo 2 sampleStore).editingId = sampleStore.editingId :=
  deleteTodo_spec sampleStore 2

/-- Claim C7: adding a non-blank title appends exactly one record, with
completed false and the modified timestamp set, growing the count by one;
adding a blank title leaves the store unchanged. -/
theorem addTodo_spec (s : Store) (now : Nat) (nowStr text : String) :
    (isBlank text = true → addTodo now nowStr text s = s) ∧
    (isBlank text = false →
      (addTodo now nowStr text s).todos =
        s.todos ++ [{ id := now, title := text, completed := false,
                      completedTime := none, modifiedTime := some nowStr }] ∧
      (addTodo now nowStr text s).todos.length = s.todos.length + 1) := by
  constructor
  · intro h
    simp [addTodo, h]
  · intro h
    refine ⟨by simp [addTodo, h], by simp [addTodo, h]⟩

/-- Witness for claim C7 at concrete blank and non-blank inputs. -/
theorem addTodo_spec_witness :
    isBlank "hi" = false ∧
    ((isBlank "hi" = true → addTodo 5 "m" "hi" initialStore = initialStore) ∧
     (isBlank "hi" = false →
       (addTodo 5 "m" "hi" initialStore).todos =
         initialStore.todos ++ [{ id := 5, title := "hi", completed := false,
                                  completedTime := none, modifiedTime := some "m" }] ∧
       (addTodo 5 "m" "hi" initialStore).todos.length = initialStore.todos.length + 1)) :=
  ⟨by decide, addTodo_spec initialStore 5 "m" "hi"⟩

/-- Claim C9: a failed seed fetch is caught, logged (flag true) and leaves
the store exactly as it was — empty at startup — after which a manual add
still appends its record; a successful fetch replaces the record list
wholesale. -/
theorem fetchTodos_spec (s : Store) (e : String) (data : List Todo) :
    fetchTodos (Except.error e) s = (s, true) ∧
    fetchTodos (Except.ok data) s = ({ s with todos := data }, false) ∧
    (∀ now nowStr text, isBlank text = false →
      (addTodo now nowStr text (fetchTodos (Except.error e) initialStore).1).todos.length = 1) := by
  refine ⟨rfl, rfl, ?_⟩
  intro now nowStr text h
  simp [fetchTodos, addTodo, h, initialStore]

/-- Witness for claim C9 at concrete inputs. -/
theorem fetchTodos_spec_witness :
    isBlank "task" = false ∧
    (fetchTodos (Except.error "boom") sampleStore = (sampleStore, true) ∧
     fetchTodos (Except.ok []) sampleStore = ({ sampleStore with todos := [] }, false) ∧
     (∀ now nowStr text, isBlank text = false →
       (addTodo now nowStr text (fetchTodos (Except.error "boom") initialStore).1).todos.length = 1)) :=
  ⟨by decide, fetchTodos_spec sampleStore "boom" []⟩

/-- Finding again after a save-update returns the updated record: the
update keeps the id, so the first match is at the same position. -/
theorem find?_saveUpdate (id : Nat) (newText nowStr : String) (l : List Todo) :
    (updateFirst (fun u => u.id == id)
        (fun u => { u with title := newText, completedTime := none,
                           completed := false, modifiedTime := some nowStr }) l).find?
      (fun u => u.id == id) =
    (l.find? (fun u => u.id == id)).map
      (fun u => { u with title := newText, completedTime := none,
                         completed := false, modifiedTime := some nowStr }) :=
  find?_updateFirst (fun u => u.id == id)
    (fun u => { u with title := newText, completedTime := none,
                       completed := false, modifiedTime := some nowStr })
    (fun _ hu => hu) l

/-- Finding again after a complete-update returns the updated record. -/
theorem find?_completeUpdate (id : Nat) (n : String) (l : List Todo) :
    (updateFirst (fun u => u.id == id)
        (fun u => { u with completed := true, completedTime := some n }) l).find?
      (fun u => u.id == id) =
    (l.find? (fun u => u.id == id)).map
      (fun u => { u with completed := true, completedTime := some n }) :=
  find?_updateFirst (fun u => u.id == id)
    (fun u => { u with completed := true, completedTime := some n })
    (fun _ hu => hu) l

/-- Completing an id whose first match is already completed is a no-op. -/
theorem complete_found_completed (n : String) (id : Nat) (s : Store) (t : Todo)
    (hfind : s.todos.find? (fun u => u.id == id) = some t) (hc : t.completed = true) :
    complete n id s = s := by
  rw [complete, hfind]
  simp [hc]

/-- Claim C4: saving a non-blank edit on a present record replaces its
title with the (untrimmed) new text, resets completed to false, drops the
completion timestamp, stamps the modified timestamp, and clears the
editing marker. -/
theorem saveEdit_nonblank (s : Store) (nowStr : String) (id : Nat) (newText : String) (t : Todo)
    (hfind : s.todos.find? (fun u => u.id == id) = some t)
    (hnb : isBlank newText = false) :
    (saveEdit nowStr id newText s).todos.find? (fun u => u.id == id) =
      some { t with title := newText, completed := false, completedTime := none,
                    modifiedTime := some nowStr } ∧
    (saveEdit nowStr id newText s).editingId = none := by
  refine ⟨?_, saveEdit_editingId nowStr id newText s⟩
  rw [saveEdit, if_neg (by simp [hnb]), hfind]
  show (updateFirst (fun u => u.id == id) _ s.todos).find? (fun u => u.id == id) = _
  rw [find?_saveUpdate id newText nowStr s.todos, hfind]
  rfl

/-- Witness for claim C4 on a completed record selected for editing. -/
theorem saveEdit_nonblank_witness :
    sampleEditing.todos.find? (fun u => u.id == 1) =
      some { id := 1, title := "A", completed := true,
             completedTime := some "c", modifiedTime := none } ∧
    isBlank "B" = false ∧
    ((saveEdit "m" 1 "B" sampleEditing).todos.find? (fun u => u.id == 1) =
      some { id := 1, title := "B", completed := false,
             completedTime := none, modifiedTime := some "m" } ∧
     (saveEdit "m" 1 "B" sampleEditing).editingId = none) :=
  ⟨by decide, by decide,
    saveEdit_nonblank sampleEditing "m" 1 "B"
      { id := 1, title := "A", completed := true,
        completedTime := some "c", modifiedTime := none }
      (by decide) (by decide)⟩

/-- Claim C5: completing a present, not-yet-completed record marks it
completed with the completion timestamp; completing an already-completed
record changes nothing, so a second complete never alters the timestamp
written by the first. -/
theorem complete_idem (s : Store) (id : Nat) (n1 n2 : String) (t : Todo)
    (hfind : s.todos.find? (fun u => u.id == id) = some t) :
    (t.completed = true → complete n1 id s = s) ∧
    (t.completed = false →
      (complete n1 id s).todos.find? (fun u => u.id == id) =
        some { t with completed := true, completedTime := some n1 }) ∧
    complete n2 id (complete n1 id s) = complete n1 id s := by
  have hupd : ∀ n : String,
      (updateFirst (fun u => u.id == id)
        (fun u => { u with completed := true, completedTime := some n }) s.todos).find?
          (fun u => u.id == id) =
        some { t with completed := true, completedTime := some n } := by
    intro n
    rw [find?_completeUpdate id n s.todos, hfind]
    rfl
  refine ⟨fun hc => complete_found_completed n1 id s t hfind hc, ?_, ?_⟩
  · intro hc
    rw [complete, hfind]
    simp only [hc, Bool.false_eq_true, if_false]
    exact hupd n1
  · by_cases hc : t.completed = true
    · rw [complete_found_completed n1 id s t hfind hc,
          complete_found_completed n2 id s t hfind hc]
    · have hcf : t.completed = false := by
        cases hcv : t.completed
        · rfl
        · exact absurd hcv hc
      have h1 : complete n1 id s =
          { s with todos := updateFirst (fun u => u.id == id) (fun u => { u with completed := true, completedTime := some n1 }) s.todos } := by
        rw [complete, hfind]
        simp [hcf]
      rw [h1]
      exact complete_found_completed n2 id _ _ (hupd n1) rfl

/-- Witness for claim C5: completing the sample record once sets the
timestamp, completing again is a no-op. -/
theorem complete_idem_witness :
    sampleStore.todos.find? (fun u => u.id == 1) =
      some { id := 1, title := "A", completed := false,
             completedTime := none, modifiedTime := none } ∧
    (((false : Bool) = true → complete "c1" 1 sampleStore = sampleStore) ∧
     ((false : Bool) = false →
       (complete "c1" 1 sampleStore).todos.find? (fun u => u.id == 1) =
         some { id := 1, title := "A", completed := true,
                completedTime := some "c1", modifiedTime := none }) ∧
     complete "c2" 1 (complete "c1" 1 sampleStore) = complete "c1" 1 sampleStore) :=
  ⟨by decide,
    complete_idem sampleStore 1 "c1" "c2"
      { id := 1, title := "A", completed := false,
        completedTime := none, modifiedTime := none }
      (by decide)⟩

/-- Completing never changes the number of records. -/
theorem complete_length (n : String) (id : Nat) (s : Store) :
    (complete n id s).todos.length = s.todos.length := by
  rw [complete]
  split
  · rfl
  · split
    · rfl
    · exact updateFirst_length _ _ s.todos

/-- Saving never changes the number of records. -/
theorem saveEdit_length (n : String) (id : Nat) (text : String) (s : Store) :
    (saveEdit n id text s).todos.length = s.todos.length := by
  rw [saveEdit]
  split
  · rfl
  · split
    · rfl
    · exact updateFirst_length _ _ s.todos

/-- A record with a different id is untouched, at its position, by complete. -/
theorem complete_getElem (n : String) (id : Nat) (s : Store) (i : Nat) (t : Todo)
    (h : s.todos[i]? = some t) (hne : t.id ≠ id) :
    (complete n id s).todos[i]? = some t := by
  rw [complete]
  split
  · exact h
  · split
    · exact h
    · exact getElem?_updateFirst _ _ s.todos i t h (by simp [hne])

/-- A record with a different id is untouched, at its position, by saveEdit. -/
theorem saveEdit_getElem (n : String) (id : Nat) (text : String) (s : Store) (i : Nat) (t : Todo)
    (h : s.todos[i]? = some t) (hne : t.id ≠ id) :
    (saveEdit n id text s).todos[i]? = some t := by
  rw [saveEdit]
  split
  · exact h
  · split
    · exact h
    · exact getElem?_updateFirst _ _ s.todos i t h (by simp [hne])

/-- Claim C10 (frame property): complete and saveEdit keep the record
count, and every record whose id differs from the target keeps all of its
fields at its original position, so the relative order is preserved. -/
theorem frame_property (s : Store) (id : Nat) (n1 n2 newText : String) :
    ((complete n1 id s).todos.length = s.todos.length ∧
      ∀ (i : Nat) (t : Todo), s.todos[i]? = some t → t.id ≠ id → (complete n1 id s).todos[i]? = some t) ∧
    ((saveEdit n2 id newText s).todos.length = s.todos.length ∧
      ∀ (i : Nat) (t : Todo), s.todos[i]? = some t → t.id ≠ id → (saveEdit n2 id newText s).todos[i]? = some t) :=
  ⟨⟨complete_length n1 id s, fun i t h hne => complete_getElem n1 id s i t h hne⟩,
   ⟨saveEdit_length n2 id newText s, fun i t h hne => saveEdit_getElem n2 id newText s i t h hne⟩⟩

/-- Witness for claim C10 on a two-record store. -/
theorem frame_property_witness :
    (((complete "c" 1 { todos := [{ id := 1, title := "A", completed := false, completedTime := none, modifiedTime := none }, { id := 2, title := "B", completed := false, completedTime := none, modifiedTime := none }], editingId := none }).todos.length = ({ todos := [{ id := 1, title := "A", completed := false, completedTime := none, modifiedTime := none }, { id := 2, title := "B", completed := false, completedTime := none, modifiedTime := none }], editingId := none } : Store).todos.length ∧
      ∀ (i : Nat) (t : Todo), ({ todos := [{ id := 1, title := "A", completed := false, completedTime := none, modifiedTime := none }, { id := 2, title := "B", completed := false, completedTime := none, modifiedTime := none }], editingId := none } : Store).todos[i]? = some t → t.id ≠ 1 → (complete "c" 1 { todos := [{ id := 1, title := "A", completed := false, completedTime := none, modifiedTime := none }, { id := 2, title := "B", completed := false, completedTime := none, modifiedTime := none }], editingId := none }).todos[i]? = some t) ∧
     ((saveEdit "m" 1 "C" { todos := [{ id := 1, title := "A", completed := false, completedTime := none, modifiedTime := none }, { id := 2, title := "B", completed := false, completedTime := none, modifiedTime := none }], editingId := none }).todos.length = ({ todos := [{ id := 1, title := "A", completed := false, completedTime := none, modifiedTime := none }, { id := 2, title := "B", completed := false, completedTime := none, modifiedTime := none }], editingId := none } : Store).todos.length ∧
      ∀ (i : Nat) (t : Todo), ({ todos := [{ id := 1, title := "A", completed := false, completedTime := none, modifiedTime := none }, { id := 2, title := "B", completed := false, completedTime := none, modifiedTime := none }], editingId := none } : Store).todos[i]? = some t → t.id ≠ 1 → (saveEdit "m" 1 "C" { todos := [{ id := 1, title := "A", completed := false, completedTime := none, modifiedTime := none }, { id := 2, title := "B", completed := false, completedTime := none, modifiedTime := none }], editingId := none }).todos[i]? = some t)) :=
  frame_property { todos := [{ id := 1, title := "A", completed := false, completedTime := none, modifiedTime := none }, { id := 2, title := "B", completed := false, completedTime := none, modifiedTime := none }], editingId := none } 1 "c" "m" "C"

/-- The save-update keeps the list of ids. -/
theorem map_id_saveUpdate (id : Nat) (newText nowStr : String) (l : List Todo) :
    (updateFirst (fun u => u.id == id)
        (fun u => { u with title := newText, completedTime := none,
                           completed := false, modifiedTime := some nowStr }) l).map Todo.id =
      l.map Todo.id :=
  map_id_updateFirst (fun u => u.id == id)
    (fun u => { u with title := newText, completedTime := none,
                       completed := false, modifiedTime := some nowStr })
    (fun _ => rfl) l

/-- The complete-update keeps the list of ids. -/
theorem map_id_completeUpdate (id : Nat) (n : String) (l : List Todo) :
    (updateFirst (fun u => u.id == id)
        (fun u => { u with completed := true, completedTime := some n }) l).map Todo.id =
      l.map Todo.id :=
  map_id_updateFirst (fun u => u.id == id)
    (fun u => { u with completed := true, completedTime := some n })
    (fun _ => rfl) l

/-- Every event keeps the ids pairwise distinct, given the environment
assumptions `opOk` on clock freshness and seed-data distinctness. -/
theorem idsNodup_step {s : Store} {op : Op} (hok : opOk s op) (hn : idsNodup s) :
    idsNodup (step op s) := by
  cases op with
  | add now nowStr text =>
    show idsNodup (addTodo now nowStr text s)
    by_cases hb : isBlank text = true
    · rw [addTodo, if_pos hb]
      exact hn
    · rw [addTodo, if_neg hb]
      rw [idsNodup] at hn ⊢
      simp only [List.map_append, List.map_cons, List.map_nil]
      rw [List.nodup_append]
      refine ⟨hn, List.nodup_singleton now, ?_⟩
      intro a ha hmem
      rcases List.mem_map.mp ha with ⟨t, ht, rfl⟩
      have heq : t.id = now := by simpa using hmem
      exact absurd heq (Nat.ne_of_lt (hok t ht))
  | del id =>
    rw [idsNodup] at hn ⊢
    exact hn.sublist ((List.filter_sublist s.todos).map Todo.id)
  | startE id => exact hn
  | cancelE => exact hn
  | save nowStr id text =>
    show idsNodup (saveEdit nowStr id text s)
    rw [idsNodup] at hn ⊢
    rw [saveEdit]
    split
    · exact hn
    · split
      · exact hn
      · simpa [map_id_saveUpdate] using hn
  | compl nowStr id =>
    show idsNodup (complete nowStr id s)
    rw [idsNodup] at hn ⊢
    rw [complete]
    split
    · exact hn
    · split
      · exact hn
      · simpa [map_id_completeUpdate] using hn
  | seed data => exact hok.1
  | seedFail e => exact hn

/-- Claim C3: in every reachable store state the record ids are pairwise
distinct, and an add with a fresh clock reading appends exactly one record
carrying the clock value as its id after all existing records, so ids
assigned by add grow with creation order. -/
theorem reachable_ids (s : Store) (h : Reachable s) :
    idsNodup s ∧
    ∀ (now : Nat) (nowStr text : String), isBlank text = false →
      (∀ t ∈ s.todos, t.id < now) →
      (step (Op.add now nowStr text) s).todos.map Todo.id = s.todos.map Todo.id ++ [now] := by
  refine ⟨?_, ?_⟩
  · induction h with
    | init => simp [idsNodup, initialStore]
    | step _hr hok ih => exact idsNodup_step hok ih
  · intro now nowStr text hb _
    show (addTodo now nowStr text s).todos.map Todo.id = _
    rw [addTodo, if_neg (by simp [hb])]
    simp

/-- Witness for claim C3 on the state reached by one add. -/
theorem reachable_ids_witness :
    idsNodup (step (Op.add 5 "m" "A") initialStore) ∧
    ∀ (now : Nat) (nowStr text : String), isBlank text = false →
      (∀ t ∈ (step (Op.add 5 "m" "A") initialStore).todos, t.id < now) →
      (step (Op.add now nowStr text) (step (Op.add 5 "m" "A") initialStore)).todos.map Todo.id =
        (step (Op.add 5 "m" "A") initialStore).todos.map Todo.id ++ [now] :=
  reachable_ids (step (Op.add 5 "m" "A") initialStore)
    (Reachable.step Reachable.init (by intro t ht; simp [initialStore] at ht))

/-- Every event keeps the invariant that a present completion timestamp
implies the record is completed. -/
theorem ctInv_step {s : Store} {op : Op} (hok : opOk s op) (hi : ctInv s) :
    ctInv (step op s) := by
  cases op with
  | add now nowStr text =>
    show ctInv (addTodo now nowStr text s)
    by_cases hb : isBlank text = true
    · rw [addTodo, if_pos hb]
      exact hi
    · rw [addTodo, if_neg hb]
      intro t ht hct
      rcases List.mem_append.mp ht with h1 | h2
      · exact hi t h1 hct
      · have heq : t = { id := now, title := text, completed := false,
                         completedTime := none, modifiedTime := some nowStr } := by
          simpa using h2
        rw [heq] at hct
        simp at hct
  | del id =>
    intro t ht hct
    exact hi t (List.mem_of_mem_filter ht) hct
  | startE id => exact hi
  | cancelE => exact hi
  | save nowStr id text =>
    show ctInv (saveEdit nowStr id text s)
    rw [saveEdit]
    split
    · intro t ht hct
      exact hi t ht hct
    · split
      · intro t ht hct
        exact hi t ht hct
      · intro t ht hct
        rcases mem_updateFirst ht with h1 | ⟨u, hu, rfl⟩
        · exact hi t h1 hct
        · simp at hct
  | compl nowStr id =>
    show ctInv (complete nowStr id s)
    rw [complete]
    split
    · exact hi
    · split
      · exact hi
      · intro t ht hct
        rcases mem_updateFirst ht with h1 | ⟨u, hu, rfl⟩
        · exact hi t h1 hct
        · rfl
  | seed data =>
    intro t ht hct
    rw [hok.2 t ht] at hct
    simp at hct
  | seedFail e => exact hi

/-- Claim C8: in every reachable store state, every record carrying a
completion timestamp is completed; the invariant holds initially and is
preserved by add, delete, start edit, cancel, save, complete, and both
outcomes of the seed fetch. -/
theorem reachable_ctInv (s : Store) (h : Reachable s) : ctInv s := by
  induction h with
  | init =>
    intro t ht _
    simp [initialStore] at ht
  | step _hr hok ih => exact ctInv_step hok ih

/-- Witness for claim C8 on the state reached by an add and a complete. -/
theorem reachable_ctInv_witness :
    ctInv (step (Op.compl "c" 1) (step (Op.add 1 "m" "A") initialStore)) :=
  reachable_ctInv _
    (Reachable.step
      (Reachable.step Reachable.init (by intro t ht; simp [initialStore] at ht))
      trivial)
